import Mathlib

/-!
# Verification of `@thalesrc/resize-manager`

A shallow embedding of `src/resize-observer.ts` and `src/resize-manager.ts`.

Two complementary views of the code are modelled:

* an *identity / caching* model (`Sys`, `GTResizeObserver`, `ResizeManager`):
  stream objects are identified by ids allocated from a counter, so that
  "the same observable instance is returned" and "the native observer's
  `observe` is called at most once" become provable statements about the
  caching logic (`OBSERVER_CACHE`, the per-instance `_buffer`, the manager's
  `_buffer`);

* a *denotational* model of the emissions: an observable is interpreted as
  the list of timed emissions it produces on a finite trace of native
  records (geometry-observer entries, mutation records and window `resize`
  events pushed on the global subjects), with the rxjs operators
  `filter` / `map` / `merge` / `distinctUntilChanged` / `throttleTime` /
  `debounceTime` / `mapTo` given their timed-list semantics.
-/

/-- `ResizeEvent` from resize-observer.ts: width & height of the target in pixels. -/
structure ResizeEvent where
  width : Nat
  height : Nat
deriving DecidableEq, Repr

/-- An observed target: `ResizableTarget = HTMLElement | Window`.
Element identity (reference equality) is modelled by a numeric id. -/
inductive Target where
  | window : Target
  | element (id : Nat) : Target
deriving DecidableEq, Repr

/-- The `type` field of a DOM `MutationRecord`. -/
inductive MutationType where
  | attributes : MutationType
  | characterData : MutationType
  | childList : MutationType
deriving DecidableEq, Repr

/-- A native record arriving on one of the global relays:
a `ResizeObserverEntry` pushed on `RESIZE_EVENTS_SUBJECT` (target plus its
contentRect width/height), a `MutationRecord` pushed on
`MUTATION_EVENTS_SUBJECT` (type and target), or a native window `resize`
event (which carries no geometry payload; the pipeline reads
`target.innerWidth` / `target.innerHeight` itself). -/
inductive NativeEvent where
  | geometry (target : Nat) (width height : Nat) : NativeEvent
  | mutation (target : Nat) (ty : MutationType) : NativeEvent
  | windowResize : NativeEvent

/-- One step of the world trace: the native record delivered at `time`,
together with the DOM state readable at that moment (`window.innerWidth`,
`window.innerHeight`, and each element's `offsetWidth` / `offsetHeight`,
read by id). -/
structure TraceItem where
  time : Nat
  event : NativeEvent
  innerWidth : Nat
  innerHeight : Nat
  offsetWidth : Nat → Nat
  offsetHeight : Nat → Nat

/-- The comparator passed to `distinctUntilChanged` in
`domElementResizeEventProvider`:
`({width, height}, next) => width === next.width && height === next.height`. -/
def resizeEventEq (a b : ResizeEvent) : Bool :=
  a.width == b.width && a.height == b.height

/-- Tail worker for `distinctUntilChangedOp`: `prev` is the last value that
was let through; a value equal to it (per `comp`) is suppressed. -/
def distinctAux (comp : α → α → Bool) (prev : α) : List (Nat × α) → List (Nat × α)
  | [] => []
  | (t, a) :: rest =>
    if comp prev a then distinctAux comp prev rest
    else (t, a) :: distinctAux comp a rest

/-- Timed-list semantics of rxjs `distinctUntilChanged(comp)`: the first
emission always passes; later ones are dropped while `comp` says they equal
the last emission that passed. -/
def distinctUntilChangedOp (comp : α → α → Bool) : List (Nat × α) → List (Nat × α)
  | [] => []
  | (t, a) :: rest => (t, a) :: distinctAux comp a rest

/-- Tail worker for `throttleTimeOp`: `lastEmit` is the time of the last
emission that passed; the window stays closed until `lastEmit + dt`. -/
def throttleAux (dt : Nat) (lastEmit : Nat) : List (Nat × α) → List (Nat × α)
  | [] => []
  | (t, a) :: rest =>
    if lastEmit + dt ≤ t then (t, a) :: throttleAux dt t rest
    else throttleAux dt lastEmit rest

/-- Timed-list semantics of rxjs `throttleTime(dt)` (leading edge): emit a
value, then ignore values for `dt` ms after that emission. -/
def throttleTimeOp (dt : Nat) : List (Nat × α) → List (Nat × α)
  | [] => []
  | (t, a) :: rest => (t, a) :: throttleAux dt t rest

/-- Timed-list semantics of rxjs `debounceTime(dt)`: each value schedules an
emission `dt` ms later, cancelled if another value arrives first; the
emission carries the latest value. -/
def debounceTimeOp (dt : Nat) : List (Nat × α) → List (Nat × α)
  | [] => []
  | [(t, a)] => [(t + dt, a)]
  | (t, a) :: (t2, b) :: rest =>
    if t + dt < t2 then (t + dt, a) :: debounceTimeOp dt ((t2, b) :: rest)
    else debounceTimeOp dt ((t2, b) :: rest)

/-- Insert an emission into a time-ordered emission list, before the first
entry with an equal or later time. -/
def insertTimed (x : Nat × α) : List (Nat × α) → List (Nat × α)
  | [] => [x]
  | y :: ys => if x.1 ≤ y.1 then x :: y :: ys else y :: insertTimed x ys

/-- Timed merge of two time-ordered emission lists (rxjs `merge`): deliver
each emission at its time; on a tie the left source is delivered first. -/
def mergeTimed (xs ys : List (Nat × α)) : List (Nat × α) :=
  xs.foldr insertTimed ys

/-- The geometry branch of the element pipeline
(resize-observer.ts lines 104-106): `RESIZE_EVENTS` filtered by
`e.target === target`, mapped to `{width: entry.contentRect.width,
height: entry.contentRect.height}`. -/
def geometryBranch (e : Nat) (item : TraceItem) : List (Nat × ResizeEvent) :=
  match item.event with
  | .geometry t w h => if t = e then [(item.time, ⟨w, h⟩)] else []
  | _ => []

/-- The mutation branch of the element pipeline
(resize-observer.ts lines 107-110): `MUTATION_EVENTS` filtered by
`record.type !== "attributes"`, mapped to `{width: target.offsetWidth,
height: target.offsetHeight}` — the observed element's current offsets,
read at emission time.  NOTE: the source filters only on the record's
type; the record's own target is not compared with the observed element. -/
def mutationBranch (e : Nat) (item : TraceItem) : List (Nat × ResizeEvent) :=
  match item.event with
  | .mutation _ ty =>
    if ty = MutationType.attributes then []
    else [(item.time, ⟨item.offsetWidth e, item.offsetHeight e⟩)]
  | _ => []

/-- The merge of the two element branches.  Each native record is delivered
on exactly one of the two subjects, so the rxjs `merge` interleaves the two
branches in trace order. -/
def elementMergedStream (e : Nat) (tr : List TraceItem) : List (Nat × ResizeEvent) :=
  tr.flatMap (fun item => geometryBranch e item ++ mutationBranch e item)

/-- Emissions of the observable built by `domElementResizeEventProvider`
(resize-observer.ts lines 104-113): the merged geometry/mutation stream,
deduplicated with `distinctUntilChanged` on the (width, height) pair. -/
def elementBaseStream (e : Nat) (tr : List TraceItem) : List (Nat × ResizeEvent) :=
  distinctUntilChangedOp resizeEventEq (elementMergedStream e tr)

/-- Emissions of the observable built by `windowResizeEventProvider`
(resize-observer.ts lines 86-93): on each native window `resize` event,
emit the window's current `innerWidth` / `innerHeight`.  No
`distinctUntilChanged`, no mutation source. -/
def windowBaseStream (tr : List TraceItem) : List (Nat × ResizeEvent) :=
  tr.flatMap (fun item =>
    match item.event with
    | .windowResize => [(item.time, ⟨item.innerWidth, item.innerHeight⟩)]
    | _ => [])

/-!
## Identity / caching model

Observable objects are identified by ids drawn from an allocation counter,
so that object identity ("the very same observable is returned") is
expressible.  `Sys` carries the module-level state of resize-observer.ts:
the `OBSERVER_CACHE` weak map, the log of `RESIZE_OBSERVER.observe(...)`
calls, the log of `MUTATION_OBSERVER.observe(...)` calls, and the counter.
-/

/-- Module-level mutable state of resize-observer.ts. -/
structure Sys where
  cache : List (Target × Nat)
  resizeObs : List Nat
  mutationObs : List Nat
  fresh : Nat
deriving DecidableEq, Repr

/-- The pristine module state: empty `OBSERVER_CACHE`, no native
registrations performed yet. -/
def initSys : Sys := ⟨[], [], [], 0⟩

/-- `OBSERVER_CACHE.get(target)`: lookup by target identity. -/
def lookupT : List (Target × Nat) → Target → Option Nat
  | [], _ => none
  | (k, v) :: rest, t => if k = t then some v else lookupT rest t

/-- Allocate a fresh observable object (every rxjs `pipe` / `fromEvent`
chain ending a factory yields a new observable instance). -/
def newStream (s : Sys) : Nat × Sys :=
  (s.fresh, { s with fresh := s.fresh + 1 })

/-- `resizeEventProvider` (resize-observer.ts lines 71-80): look the target
up in `OBSERVER_CACHE`; on a miss run the factory, store its result and
return it. -/
def resizeEventProvider (target : Target) (factory : Sys → Nat × Sys) (s : Sys) :
    Nat × Sys :=
  match lookupT s.cache target with
  | some sid => (sid, s)
  | none =>
    let r := factory s
    (r.1, { r.2 with cache := (target, r.1) :: r.2.cache })

/-- `windowResizeEventProvider` (lines 86-93): the factory builds the
`fromEvent(...).pipe(map, share)` observable; no native element observer is
registered. -/
def windowResizeEventProvider (target : Target) (s : Sys) : Nat × Sys :=
  resizeEventProvider target (fun s => newStream s) s

/-- `domElementResizeEventProvider` (lines 99-115): the factory calls
`RESIZE_OBSERVER.observe(target)` and `MUTATION_OBSERVER.observe(target,
{attributes, characterData, subtree, childList})`, then builds the merged
deduplicated pipeline. -/
def domElementResizeEventProvider (e : Nat) (s : Sys) : Nat × Sys :=
  resizeEventProvider (Target.element e)
    (fun s =>
      newStream { s with
        resizeObs := s.resizeObs ++ [e],
        mutationObs := s.mutationObs ++ [e] }) s

/-- The `GTResizeObserver` object (resize-observer.ts lines 125-201):
target, throttle interval (constructor default 90), the `_provider` base
observable and the `_buffer` sub-cache of throttled observables keyed by
interval. -/
structure GTResizeObserver where
  target : Target
  throttleTime : Int
  provider : Nat
  buffer : List (Int × Nat)
deriving DecidableEq, Repr

/-- `_buffer` lookup: `time in this._buffer`. -/
def lookupI : List (Int × Nat) → Int → Option Nat
  | [], _ => none
  | (k, v) :: rest, t => if k = t then some v else lookupI rest t

/-- The `GTResizeObserver` constructor (lines 145-152): the `throttleTime`
parameter defaults to 90 when absent; `_provider` is obtained from the
window or element provider according to the target. -/
def GTResizeObserver.construct (target : Target) (throttleTimeArg : Option Int)
    (s : Sys) : GTResizeObserver × Sys :=
  let tt := throttleTimeArg.getD 90
  let r :=
    match target with
    | Target.window => windowResizeEventProvider target s
    | Target.element e => domElementResizeEventProvider e s
  (⟨target, tt, r.1, []⟩, r.2)

/-- `throttleBy` (lines 190-200): `time <= 0` returns `_provider` itself;
otherwise the throttled observable is looked up in `_buffer`, being created
(one fresh `pipe(throttleTime(time))` object) only on the first request. -/
def GTResizeObserver.throttleBy (o : GTResizeObserver) (time : Int) (s : Sys) :
    Nat × GTResizeObserver × Sys :=
  if time ≤ 0 then (o.provider, o, s)
  else
    match lookupI o.buffer time with
    | some sid => (sid, o, s)
    | none =>
      let r := newStream s
      (r.1, { o with buffer := (time, r.1) :: o.buffer }, r.2)

/-- The `resize` getter (lines 161-163): `this.throttleBy(this.throttleTime)`. -/
def GTResizeObserver.resize (o : GTResizeObserver) (s : Sys) :
    Nat × GTResizeObserver × Sys :=
  o.throttleBy o.throttleTime s

/-- The `ResizeManager` object (resize-manager.ts): default observer
throttle time (constructor default 90) and the target → observer buffer. -/
structure ResizeManager where
  observerThrottleTime : Int
  buffer : List (Target × GTResizeObserver)
deriving DecidableEq, Repr

/-- `new ResizeManager(observerThrottleTime = 90)`. -/
def ResizeManager.construct (observerThrottleTimeArg : Option Int) : ResizeManager :=
  ⟨observerThrottleTimeArg.getD 90, []⟩

/-- Manager `_buffer` lookup: `this._buffer.get(target)`. -/
def lookupB : List (Target × GTResizeObserver) → Target → Option GTResizeObserver
  | [], _ => none
  | (k, v) :: rest, t => if k = t then some v else lookupB rest t

/-- `ResizeManager.observe(target, throttleTime = this.observerThrottleTime)`
(resize-manager.ts lines 11-17): on a buffer miss construct
`new GTResizeObserver(target, throttleTime)` and store it; return the
buffered observer. -/
def ResizeManager.observe (m : ResizeManager) (target : Target)
    (throttleTimeArg : Option Int) (s : Sys) :
    GTResizeObserver × ResizeManager × Sys :=
  match lookupB m.buffer target with
  | some o => (o, m, s)
  | none =>
    let tt := throttleTimeArg.getD m.observerThrottleTime
    let r := GTResizeObserver.construct target (some tt) s
    (r.1, { m with buffer := (target, r.1) :: m.buffer }, r.2)

/-- The `root` getter (resize-manager.ts lines 19-21):
`this.observe(window)`. -/
def ResizeManager.root (m : ResizeManager) (s : Sys) :
    GTResizeObserver × ResizeManager × Sys :=
  m.observe Target.window none s

/-- An arbitrary sequence of `new GTResizeObserver(target, throttleTime?)`
constructions run against the module state. -/
def runConstructions : List (Target × Option Int) → Sys → List GTResizeObserver × Sys
  | [], s => ([], s)
  | (t, tt) :: rest, s =>
    let r := GTResizeObserver.construct t tt s
    let r' := runConstructions rest r.2
    (r.1 :: r'.1, r'.2)

/-!
## Denotation of the derived streams

The emissions each observable of a `GTResizeObserver` produces on a trace.
The caches (`OBSERVER_CACHE`, `_buffer`) always return the pipeline built
from the same recipe, so the denotation depends only on the observer's
target and throttle interval.
-/

/-- Emissions of `this._provider` (constructor, lines 149-151): the window
base stream for a `Window` target, the element base stream otherwise. -/
def GTResizeObserver.providerDen (o : GTResizeObserver) (tr : List TraceItem) :
    List (Nat × ResizeEvent) :=
  match o.target with
  | Target.window => windowBaseStream tr
  | Target.element e => elementBaseStream e tr

/-- Emissions of the observable returned by `throttleBy(time)` (lines
190-200): the raw `_provider` for `time <= 0`, otherwise the provider piped
through `throttleTime(time)`. -/
def GTResizeObserver.throttleByDen (o : GTResizeObserver) (time : Int)
    (tr : List TraceItem) : List (Nat × ResizeEvent) :=
  if time ≤ 0 then o.providerDen tr
  else throttleTimeOp time.toNat (o.providerDen tr)

/-- Emissions of the `resize` getter (lines 161-163):
`throttleBy(this.throttleTime)`. -/
def GTResizeObserver.resizeDen (o : GTResizeObserver) (tr : List TraceItem) :
    List (Nat × ResizeEvent) :=
  o.throttleByDen o.throttleTime tr

/-- Emissions of the `resizeEnd` getter (lines 179-181):
`this._provider.pipe(debounceTime(this.throttleTime))`. -/
def GTResizeObserver.resizeEndDen (o : GTResizeObserver) (tr : List TraceItem) :
    List (Nat × ResizeEvent) :=
  debounceTimeOp o.throttleTime.toNat (o.providerDen tr)

/-- `isTruthy` from @thalesrc/js-utils, on values of type
`ResizeEvent | false`: a `ResizeEvent` object is truthy, `false` is not.
The union type is modelled as `Option ResizeEvent` (`none` = `false`). -/
def isTruthy (v : Option ResizeEvent) : Bool :=
  v.isSome

/-- `bothTruthy` (resize-observer.ts lines 117-119):
`isTruthy(val1) && isTruthy(val2)`. -/
def bothTruthy (v1 v2 : Option ResizeEvent) : Bool :=
  isTruthy v1 && isTruthy v2

/-- Emissions of the `resizeStart` getter (lines 168-174): the provider
merged with `resizeEnd.pipe(mapTo(false))`, `distinctUntilChanged(bothTruthy)`
(so a second consecutive truthy value is suppressed), then
`filter(isTruthy)` — which leaves only `ResizeEvent` values. -/
def GTResizeObserver.resizeStartDen (o : GTResizeObserver) (tr : List TraceItem) :
    List (Nat × ResizeEvent) :=
  (distinctUntilChangedOp bothTruthy
      (mergeTimed
        ((o.providerDen tr).map (fun p => (p.1, some p.2)))
        ((o.resizeEndDen tr).map (fun p => (p.1, (none : Option ResizeEvent)))))).filterMap
    (fun p => p.2.map (fun v => (p.1, v)))

/-!
## Lemmas about the stream operators
-/

theorem distinctAux_spec (comp : α → α → Bool) :
    ∀ (l : List (Nat × α)) (prev : α),
      (∀ x, (distinctAux comp prev l).head? = some x → comp prev x.2 = false) ∧
      List.Chain' (fun p q => comp p.2 q.2 = false) (distinctAux comp prev l) := by
  intro l
  induction l with
  | nil => intro prev; simp [distinctAux]
  | cons hd tl ih =>
    intro prev
    obtain ⟨t, a⟩ := hd
    by_cases h : comp prev a
    · simpa [distinctAux, h] using ih prev
    · refine ⟨?_, ?_⟩
      · intro x hx
        simp only [distinctAux, if_neg h, List.head?_cons, Option.some.injEq] at hx
        subst hx
        exact Bool.eq_false_iff.mpr h
      · simp only [distinctAux, if_neg h]
        rw [List.chain'_cons']
        exact ⟨fun y hy => (ih a).1 y hy, (ih a).2⟩

theorem distinctUntilChangedOp_chain (comp : α → α → Bool) (l : List (Nat × α)) :
    List.Chain' (fun p q => comp p.2 q.2 = false) (distinctUntilChangedOp comp l) := by
  cases l with
  | nil => simp [distinctUntilChangedOp]
  | cons hd tl =>
    obtain ⟨t, a⟩ := hd
    simp only [distinctUntilChangedOp]
    rw [List.chain'_cons']
    exact ⟨fun y hy => (distinctAux_spec comp tl a).1 y hy, (distinctAux_spec comp tl a).2⟩

theorem throttleAux_spec (dt : Nat) :
    ∀ (l : List (Nat × α)) (last : Nat),
      (∀ x, (throttleAux dt last l).head? = some x → last + dt ≤ x.1) ∧
      List.Chain' (fun p q => p.1 + dt ≤ q.1) (throttleAux dt last l) := by
  intro l
  induction l with
  | nil => intro last; simp [throttleAux]
  | cons hd tl ih =>
    intro last
    obtain ⟨t, a⟩ := hd
    by_cases h : last + dt ≤ t
    · refine ⟨?_, ?_⟩
      · intro x hx
        simp only [throttleAux, if_pos h, List.head?_cons, Option.some.injEq] at hx
        subst hx
        exact h
      · simp only [throttleAux, if_pos h]
        rw [List.chain'_cons']
        exact ⟨fun y hy => (ih t).1 y hy, (ih t).2⟩
    · simpa [throttleAux, h] using ih last

theorem throttleTimeOp_chain (dt : Nat) (l : List (Nat × α)) :
    List.Chain' (fun p q => p.1 + dt ≤ q.1) (throttleTimeOp dt l) := by
  cases l with
  | nil => simp [throttleTimeOp]
  | cons hd tl =>
    obtain ⟨t, a⟩ := hd
    simp only [throttleTimeOp]
    rw [List.chain'_cons']
    exact ⟨fun y hy => (throttleAux_spec dt tl t).1 y hy, (throttleAux_spec dt tl t).2⟩

/-!
## Concrete fixtures used by the witnesses
-/

/-- A DOM snapshot reading used where element offsets are irrelevant. -/
def zeroDims : Nat → Nat := fun _ => 0

/-- Three native window resize signals in a 20 ms burst. -/
def windowTrace : List TraceItem :=
  [⟨0, NativeEvent.windowResize, 800, 600, zeroDims, zeroDims⟩,
   ⟨10, NativeEvent.windowResize, 700, 500, zeroDims, zeroDims⟩,
   ⟨20, NativeEvent.windowResize, 640, 480, zeroDims, zeroDims⟩]

/-- An observer handle on the window with the default 90 ms interval. -/
def windowObs : GTResizeObserver := ⟨Target.window, 90, 0, []⟩

/-- A module state in which the window base stream (id 0) has been built. -/
def sysW : Sys := ⟨[(Target.window, 0)], [], [], 1⟩

/-- C2: for every observed element, consecutive emissions on the element's
base stream never carry an identical (width, height) pair, and feeding two
consecutive geometry records with identical width and height for the
element yields exactly one emission on the base stream. -/
theorem elementBaseStream_dedup (e : Nat) (tr : List TraceItem) :
    List.Chain' (fun p q => resizeEventEq p.2 q.2 = false) (elementBaseStream e tr) ∧
    ∀ (t1 t2 w h iw1 ih1 iw2 ih2 : Nat) (ow1 oh1 ow2 oh2 : Nat → Nat),
      elementBaseStream e
        [⟨t1, NativeEvent.geometry e w h, iw1, ih1, ow1, oh1⟩,
         ⟨t2, NativeEvent.geometry e w h, iw2, ih2, ow2, oh2⟩] = [(t1, ⟨w, h⟩)] := by
  constructor
  · exact distinctUntilChangedOp_chain _ _
  · intro t1 t2 w h iw1 ih1 iw2 ih2 ow1 oh1 ow2 oh2
    simp [elementBaseStream, elementMergedStream, geometryBranch, mutationBranch,
      distinctUntilChangedOp, distinctAux, resizeEventEq]

/-- C4: `throttleBy(t)` with `t <= 0` returns the raw base stream object
itself, with no state change and no throttling applied (every deduplicated
base emission passes through); with `t > 0` the returned stream is rate
limited: consecutive emissions are at least `t` milliseconds apart. -/
theorem throttleBy_zero_bypasses (o : GTResizeObserver) (s : Sys)
    (t : Int) (tr : List TraceItem) :
    (t ≤ 0 → o.throttleBy t s = (o.provider, o, s) ∧
      o.throttleByDen t tr = o.providerDen tr) ∧
    (0 < t → List.Chain' (fun p q : Nat × ResizeEvent => p.1 + t.toNat ≤ q.1)
      (o.throttleByDen t tr)) := by
  constructor
  · intro h
    constructor
    · simp [GTResizeObserver.throttleBy, h]
    · simp [GTResizeObserver.throttleByDen, h]
  · intro h
    have h' : ¬ t ≤ 0 := by omega
    simp only [GTResizeObserver.throttleByDen, if_neg h']
    exact throttleTimeOp_chain _ _

/-- Witness for `throttleBy_zero_bypasses` at `t = 0` and `t = 90` on a
concrete window observer and trace. -/
theorem throttleBy_zero_bypasses_witness :
    (windowObs.throttleBy 0 sysW = (windowObs.provider, windowObs, sysW) ∧
      windowObs.throttleByDen 0 windowTrace = windowObs.providerDen windowTrace) ∧
    List.Chain' (fun p q : Nat × ResizeEvent => p.1 + (90 : Int).toNat ≤ q.1)
      (windowObs.throttleByDen 90 windowTrace) :=
  ⟨(throttleBy_zero_bypasses windowObs sysW 0 windowTrace).1 (by decide),
   (throttleBy_zero_bypasses windowObs sysW 90 windowTrace).2 (by decide)⟩

/-!
## Caching lemmas
-/

theorem lookupI_none_countP (l : List (Int × Nat)) (t : Int)
    (h : lookupI l t = none) : l.countP (fun p => p.1 == t) = 0 := by
  induction l with
  | nil => simp
  | cons hd tl ih =>
    obtain ⟨k, v⟩ := hd
    by_cases hk : k = t
    · simp [lookupI, hk] at h
    · simp only [lookupI, if_neg hk] at h
      rw [List.countP_cons_of_neg]
      · exact ih h
      · simp [hk]

/-- C6: with a positive interval, a repeated `throttleBy(t)` call returns
exactly the stream object the first call returned and changes nothing; a
call that hits the `_buffer` sub-cache allocates nothing; a call that
misses allocates exactly one new throttled pipeline and stores it under
`t`, so the sub-cache holds exactly one pipeline for that interval. -/
theorem throttleBy_subcache (o : GTResizeObserver) (s : Sys) (t : Int)
    (ht : 0 < t) :
    ((o.throttleBy t s).2.1.throttleBy t (o.throttleBy t s).2.2 = o.throttleBy t s) ∧
    (∀ sid, lookupI o.buffer t = some sid → o.throttleBy t s = (sid, o, s)) ∧
    (lookupI o.buffer t = none →
      o.throttleBy t s =
        (s.fresh, { o with buffer := (t, s.fresh) :: o.buffer },
          { s with fresh := s.fresh + 1 }) ∧
      ((o.throttleBy t s).2.1.buffer.countP (fun p => p.1 == t)) = 1) := by
  have h' : ¬ t ≤ 0 := by omega
  cases hl : lookupI o.buffer t with
  | some sid =>
    refine ⟨?_, ?_, ?_⟩
    · simp [GTResizeObserver.throttleBy, if_neg h', hl]
    · intro sid' hsid'
      cases hsid'
      simp [GTResizeObserver.throttleBy, if_neg h', hl]
    · intro hn; cases hn
  | none =>
    have hfst : o.throttleBy t s =
        (s.fresh, { o with buffer := (t, s.fresh) :: o.buffer },
          { s with fresh := s.fresh + 1 }) := by
      simp [GTResizeObserver.throttleBy, if_neg h', hl, newStream]
    refine ⟨?_, ?_, ?_⟩
    · rw [hfst]
      simp [GTResizeObserver.throttleBy, if_neg h', lookupI]
    · intro sid hsid; cases hsid
    · intro _
      refine ⟨hfst, ?_⟩
      rw [hfst]
      simp only [List.countP_cons]
      rw [lookupI_none_countP o.buffer t hl]
      simp

/-- Witness for `throttleBy_subcache`: a second `throttleBy(200)` on the
window observer returns the pipeline the first call created. -/
theorem throttleBy_subcache_witness :
    ((windowObs.throttleBy 200 sysW).2.1.throttleBy 200
        (windowObs.throttleBy 200 sysW).2.2 = windowObs.throttleBy 200 sysW) ∧
    (windowObs.throttleBy 200 sysW =
        (sysW.fresh, { windowObs with buffer := [(200, sysW.fresh)] },
          { sysW with fresh := sysW.fresh + 1 }) ∧
      ((windowObs.throttleBy 200 sysW).2.1.buffer.countP (fun p => p.1 == 200)) = 1) :=
  ⟨(throttleBy_subcache windowObs sysW 200 (by decide)).1,
   (throttleBy_subcache windowObs sysW 200 (by decide)).2.2 (by decide)⟩

theorem observe_idem (m : ResizeManager) (target : Target)
    (tt1 tt2 : Option Int) (s : Sys) :
    (m.observe target tt1 s).2.1.observe target tt2 (m.observe target tt1 s).2.2 =
      ((m.observe target tt1 s).1, (m.observe target tt1 s).2.1,
        (m.observe target tt1 s).2.2) := by
  cases hl : lookupB m.buffer target with
  | some o => simp [ResizeManager.observe, hl]
  | none => simp [ResizeManager.observe, hl, lookupB]

/-- C7: the default `resize` stream is `throttleBy(throttleTime)` — both as
stream objects and in emissions — and an observer constructed without a
throttle interval gets the default of 90 ms. -/
theorem resize_is_default_throttleBy (o : GTResizeObserver) (s : Sys)
    (target : Target) (tr : List TraceItem) :
    o.resize s = o.throttleBy o.throttleTime s ∧
    o.resizeDen tr = o.throttleByDen o.throttleTime tr ∧
    ((GTResizeObserver.construct target none s).1).throttleTime = 90 :=
  ⟨rfl, rfl, rfl⟩

/-- C9: once a target is cached by a previous `observe` call, a subsequent
`observe(target, throttleTime)` returns the cached observer and leaves the
manager and module state untouched, whatever (and whether a) throttle
argument is passed: the second call after any first call returns exactly
the first call's results, and a call hitting the buffer returns the
buffered observer unchanged. -/
theorem observe_returns_cached (m : ResizeManager) (target : Target)
    (tt1 tt2 : Option Int) (s : Sys) :
    ((m.observe target tt1 s).2.1.observe target tt2 (m.observe target tt1 s).2.2 =
      ((m.observe target tt1 s).1, (m.observe target tt1 s).2.1,
        (m.observe target tt1 s).2.2)) ∧
    (∀ o, lookupB m.buffer target = some o → m.observe target tt2 s = (o, m, s)) := by
  refine ⟨observe_idem m target tt1 tt2 s, ?_⟩
  intro o ho
  simp [ResizeManager.observe, ho]

/-- A manager whose buffer already caches an observer for element 3. -/
def elemObsCached : GTResizeObserver := ⟨Target.element 3, 120, 0, []⟩

/-- Manager state fixture caching `elemObsCached` for element 3. -/
def mgrCached : ResizeManager := ⟨90, [(Target.element 3, elemObsCached)]⟩

/-- Module state fixture after element 3 has been registered. -/
def sysCached : Sys := ⟨[(Target.element 3, 0)], [3], [3], 1⟩

/-- Witness for `observe_returns_cached`: observing the already-cached
element 3 with a different throttle argument returns the cached observer
(with its original 120 ms interval) and changes nothing. -/
theorem observe_returns_cached_witness :
    mgrCached.observe (Target.element 3) (some 33) sysCached =
      (elemObsCached, mgrCached, sysCached) :=
  (observe_returns_cached mgrCached (Target.element 3) (some 120) (some 33)
    sysCached).2 elemObsCached (by decide)

/-- C10: the `root` getter is `observe(window)`, and repeated `root`
accesses or `observe(window)` calls on the same manager all return the
one cached window observer. -/
theorem root_observe_window (m : ResizeManager) (s : Sys) (tt : Option Int) :
    m.root s = m.observe Target.window none s ∧
    ((m.root s).2.1.root (m.root s).2.2).1 = (m.root s).1 ∧
    ((m.root s).2.1.observe Target.window tt (m.root s).2.2).1 = (m.root s).1 :=
  ⟨rfl,
   congrArg Prod.fst (observe_idem m Target.window none none s),
   congrArg Prod.fst (observe_idem m Target.window none tt s)⟩

/-- C8: on the viewport target, appending one native record to the trace
appends exactly one emission — the viewport's current inner width and
height, read at emission time — when the record is a window resize signal,
and no emission otherwise (no deduplication of repeated values, no
mutation-detector involvement); and the base stream of any observer
constructed for the window target is exactly this stream. -/
theorem windowBaseStream_per_signal (tr : List TraceItem) (item : TraceItem) :
    (windowBaseStream (tr ++ [item]) = windowBaseStream tr ++
      (match item.event with
       | NativeEvent.windowResize => [(item.time, ⟨item.innerWidth, item.innerHeight⟩)]
       | _ => [])) ∧
    ∀ (tt : Option Int) (s : Sys),
      ((GTResizeObserver.construct Target.window tt s).1).providerDen tr =
        windowBaseStream tr := by
  constructor
  · simp [windowBaseStream, List.flatMap_append]
  · intro tt s
    rfl

/-- A single non-attribute mutation record targeting element 2, delivered
while element 1's current offset dimensions are 10 x 20. -/
def crossMutationTrace : List TraceItem :=
  [⟨5, NativeEvent.mutation 2 MutationType.childList, 0, 0,
    (fun _ => 10), (fun _ => 20)⟩]

/-- Counterexample to C3 as stated: a non-attribute mutation record whose
target is element 2 — a different element than the observed element 1 —
produces an emission on element 1's base stream (the source filters
mutation records by type only, never comparing the record's target with
the observed element), where the claim requires no emission. -/
theorem crossTargetMutation_emits :
    elementBaseStream 1 crossMutationTrace = [(5, ⟨10, 20⟩)] ∧
    elementBaseStream 1 crossMutationTrace ≠ [] := by
  constructor <;> decide

/-- C3 (amended): the element base stream merges the geometry records
filtered to the element with all non-attribute mutation records regardless
of the record's target, each mapped to the observed element's current
offset width/height; a single non-attribute mutation record — whatever its
target — yields one emission carrying the element's current offsets, and
after a geometry emission a non-attribute mutation record yields a further
emission exactly when the element's current offsets differ from the last
emitted (width, height) pair. -/
theorem mutationFallback_amended (e f : Nat) (ty : MutationType)
    (ht : ty ≠ MutationType.attributes) :
    (∀ (t iw ihh : Nat) (ow oh : Nat → Nat),
      elementBaseStream e [⟨t, NativeEvent.mutation f ty, iw, ihh, ow, oh⟩] =
        [(t, ⟨ow e, oh e⟩)]) ∧
    (∀ (t1 t2 w h iw1 ihh1 iw2 ihh2 : Nat) (ow1 oh1 ow2 oh2 : Nat → Nat),
      elementBaseStream e
        [⟨t1, NativeEvent.geometry e w h, iw1, ihh1, ow1, oh1⟩,
         ⟨t2, NativeEvent.mutation f ty, iw2, ihh2, ow2, oh2⟩] =
        if resizeEventEq ⟨w, h⟩ ⟨ow2 e, oh2 e⟩ then [(t1, ⟨w, h⟩)]
        else [(t1, ⟨w, h⟩), (t2, ⟨ow2 e, oh2 e⟩)]) := by
  constructor
  · intro t iw ihh ow oh
    simp [elementBaseStream, elementMergedStream, geometryBranch, mutationBranch,
      ht, distinctUntilChangedOp, distinctAux]
  · intro t1 t2 w h iw1 ihh1 iw2 ihh2 ow1 oh1 ow2 oh2
    by_cases hc : resizeEventEq ⟨w, h⟩ ⟨ow2 e, oh2 e⟩
    · simp [elementBaseStream, elementMergedStream, geometryBranch, mutationBranch,
        ht, distinctUntilChangedOp, distinctAux, hc]
    · simp [elementBaseStream, elementMergedStream, geometryBranch, mutationBranch,
        ht, distinctUntilChangedOp, distinctAux, hc]

/-- Witness for `mutationFallback_amended`: a childList mutation record
targeting element 2 yields, on element 1's base stream, one emission with
element 1's current offsets 10 x 20. -/
theorem mutationFallback_amended_witness :
    elementBaseStream 1 [⟨5, NativeEvent.mutation 2 MutationType.childList, 0, 0,
        (fun _ => 10), (fun _ => 20)⟩] = [(5, ⟨10, 20⟩)] :=
  (mutationFallback_amended 1 2 MutationType.childList (by decide)).1 5 0 0
    (fun _ => 10) (fun _ => 20)

/-!
## Lemmas for the resize start / end state machine
-/

theorem chain_lt_head {α : Type _} :
    ∀ (rest : List (Nat × α)) (x : Nat × α),
      List.Chain' (fun p q : Nat × α => p.1 < q.1) (x :: rest) →
      ∀ q ∈ rest, x.1 < q.1 := by
  intro rest
  induction rest with
  | nil => intro x _ q hq; cases hq
  | cons b tl ih =>
    intro x h q hq
    rw [List.chain'_cons] at h
    cases hq with
    | head => exact h.1
    | tail _ hq' => exact lt_trans h.1 (ih b h.2 q hq')

theorem burst_gap_chain {α : Type _} (dt : Nat) :
    ∀ (rest : List (Nat × α)) (x : Nat × α),
      List.Chain' (fun p q : Nat × α => p.1 < q.1) (x :: rest) →
      (∀ q ∈ rest, q.1 < x.1 + dt) →
      List.Chain' (fun p q : Nat × α => q.1 ≤ p.1 + dt) (x :: rest) := by
  intro rest
  induction rest with
  | nil => intro x _ _; simp
  | cons b tl ih =>
    intro x h hw
    rw [List.chain'_cons] at h ⊢
    refine ⟨?_, ?_⟩
    · have := hw b (List.mem_cons_self _ _)
      omega
    · refine ih b h.2 ?_
      intro q hq
      have h1 := hw q (List.mem_cons_of_mem _ hq)
      have h2 : x.1 < b.1 := h.1
      omega

theorem debounce_quiet {α : Type _} (dt : Nat) :
    ∀ (l : List (Nat × α)),
      List.Chain' (fun p q : Nat × α => q.1 ≤ p.1 + dt) l →
      debounceTimeOp dt l =
        (l.getLast?).toList.map (fun p => (p.1 + dt, p.2)) := by
  intro l
  induction l with
  | nil => intro _; rfl
  | cons x tl ih =>
    intro h
    cases tl with
    | nil =>
      obtain ⟨t, a⟩ := x
      simp [debounceTimeOp]
    | cons y tl' =>
      rw [List.chain'_cons] at h
      obtain ⟨t, a⟩ := x
      obtain ⟨t2, b⟩ := y
      have hnot : ¬ t + dt < t2 := by
        have := h.1
        omega
      simp only [debounceTimeOp, if_neg hnot]
      rw [List.getLast?_cons_cons]
      exact ih h.2

theorem mergeTimed_single_last {α : Type _} (T : Nat) (v : α) :
    ∀ (xs : List (Nat × α)),
      List.Chain' (fun p q : Nat × α => p.1 < q.1) xs →
      (∀ x ∈ xs, x.1 ≤ T) →
      mergeTimed xs [(T, v)] = xs ++ [(T, v)] := by
  intro xs
  induction xs with
  | nil => intro _ _; rfl
  | cons x tl ih =>
    intro hc hle
    have hc' := List.chain'_cons'.mp hc
    show insertTimed x (mergeTimed tl [(T, v)]) = x :: (tl ++ [(T, v)])
    rw [ih hc'.2 (fun y hy => hle y (List.mem_cons_of_mem _ hy))]
    cases tl with
    | nil =>
      simp [insertTimed, hle x (List.mem_cons_self _ _)]
    | cons y tl' =>
      have hxy : x.1 ≤ y.1 := le_of_lt (hc'.1 y rfl)
      simp [insertTimed, hxy]

theorem distinctAux_some_run :
    ∀ (mid : List (Nat × ResizeEvent)) (a : ResizeEvent) (T : Nat),
      distinctAux bothTruthy (some a)
        (mid.map (fun p => (p.1, some p.2)) ++ [(T, (none : Option ResizeEvent))]) =
        [(T, (none : Option ResizeEvent))] := by
  intro mid
  induction mid with
  | nil =>
    intro a T
    simp [distinctAux, bothTruthy, isTruthy]
  | cons x tl ih =>
    intro a T
    simp only [List.map_cons, List.cons_append, distinctAux]
    rw [if_pos]
    · exact ih a T
    · simp [bothTruthy, isTruthy]

/-- C5: when the base stream of an observer with positive throttleTime
emits a burst — every emission within a window shorter than throttleTime
after the first, with nothing afterwards (silence longer than the quiet
period) — `resizeStart` emits exactly once, at the first emission of the
burst, and `resizeEnd` emits exactly once, one quiet period after the last
emission, carrying the last emitted size (Idle→Resizing start edge,
Resizing→Idle end edge). -/
theorem resizeStart_resizeEnd_burst (o : GTResizeObserver) (tr : List TraceItem)
    (t : Nat) (a : ResizeEvent) (rest : List (Nat × ResizeEvent))
    (tl : Nat) (al : ResizeEvent)
    (hT : 0 < o.throttleTime)
    (hbase : o.providerDen tr = (t, a) :: rest)
    (hmono : List.Chain' (fun p q : Nat × ResizeEvent => p.1 < q.1) ((t, a) :: rest))
    (hlast : ((t, a) :: rest).getLast? = some (tl, al))
    (hwin : ∀ q ∈ rest, q.1 < t + o.throttleTime.toNat) :
    o.resizeStartDen tr = [(t, a)] ∧
    o.resizeEndDen tr = [(tl + o.throttleTime.toNat, al)] := by
  have hgap : List.Chain' (fun p q : Nat × ResizeEvent =>
      q.1 ≤ p.1 + o.throttleTime.toNat) ((t, a) :: rest) :=
    burst_gap_chain _ rest (t, a) hmono hwin
  have hend : o.resizeEndDen tr = [(tl + o.throttleTime.toNat, al)] := by
    unfold GTResizeObserver.resizeEndDen
    rw [hbase, debounce_quiet _ _ hgap, hlast]
    rfl
  refine ⟨?_, hend⟩
  have hmem : (tl, al) ∈ (t, a) :: rest := List.mem_of_mem_getLast? hlast
  have htl : t ≤ tl := by
    rcases List.mem_cons.mp hmem with heq | hmem'
    · injection heq with h1 h2
      omega
    · exact le_of_lt (chain_lt_head rest (t, a) hmono _ hmem')
  have hmapchain : List.Chain' (fun p q : Nat × Option ResizeEvent => p.1 < q.1)
      (((t, a) :: rest).map (fun p => (p.1, some p.2))) :=
    (List.chain'_map _).mpr hmono
  have hle : ∀ x ∈ ((t, a) :: rest).map (fun p => (p.1, some p.2)),
      x.1 ≤ tl + o.throttleTime.toNat := by
    intro x hx
    rw [List.mem_map] at hx
    obtain ⟨p, hp, rfl⟩ := hx
    rcases List.mem_cons.mp hp with heq | hp'
    · subst heq
      show t ≤ tl + o.throttleTime.toNat
      omega
    · have := hwin p hp'
      show p.1 ≤ tl + o.throttleTime.toNat
      omega
  have hmerge := mergeTimed_single_last (tl + o.throttleTime.toNat)
    (none : Option ResizeEvent) (((t, a) :: rest).map (fun p => (p.1, some p.2)))
    hmapchain hle
  unfold GTResizeObserver.resizeStartDen
  rw [hend, hbase]
  simp only [List.map_cons, List.map_nil] at hmerge ⊢
  rw [hmerge]
  simp only [List.cons_append, List.nil_append, distinctUntilChangedOp]
  rw [distinctAux_some_run rest a (tl + o.throttleTime.toNat)]
  simp [List.filterMap]

/-!
## The single-registration invariant
-/

/-- Invariant of the module state: the logs of native `observe` calls are
duplicate-free and every logged element already has a cached base stream. -/
structure SysInv (s : Sys) : Prop where
  rN : s.resizeObs.Nodup
  mN : s.mutationObs.Nodup
  rC : ∀ e, e ∈ s.resizeObs → (lookupT s.cache (Target.element e)).isSome
  mC : ∀ e, e ∈ s.mutationObs → (lookupT s.cache (Target.element e)).isSome

theorem construct_spec (target : Target) (tt : Option Int) (s : Sys)
    (h : SysInv s) :
    SysInv (GTResizeObserver.construct target tt s).2 ∧
    lookupT (GTResizeObserver.construct target tt s).2.cache target =
      some ((GTResizeObserver.construct target tt s).1).provider ∧
    (∀ t v, lookupT s.cache t = some v →
      lookupT (GTResizeObserver.construct target tt s).2.cache t = some v) ∧
    ((GTResizeObserver.construct target tt s).1).target = target := by
  cases target with
  | window =>
    cases hl : lookupT s.cache Target.window with
    | some sid =>
      have hceq : GTResizeObserver.construct Target.window tt s =
          (⟨Target.window, tt.getD 90, sid, []⟩, s) := by
        simp [GTResizeObserver.construct, windowResizeEventProvider,
          resizeEventProvider, hl]
      rw [hceq]
      exact ⟨h, hl, fun t v hv => hv, rfl⟩
    | none =>
      have hceq : GTResizeObserver.construct Target.window tt s =
          (⟨Target.window, tt.getD 90, s.fresh, []⟩,
           ⟨(Target.window, s.fresh) :: s.cache,
             s.resizeObs, s.mutationObs, s.fresh + 1⟩) := by
        simp [GTResizeObserver.construct, windowResizeEventProvider,
          resizeEventProvider, hl, newStream]
      rw [hceq]
      have hwne : ∀ e : Nat, Target.window ≠ Target.element e := by
        intro e he; cases he
      refine ⟨⟨h.rN, h.mN, ?_, ?_⟩, ?_, ?_, rfl⟩
      · intro e he
        simp only [lookupT, if_neg (hwne e)]
        exact h.rC e he
      · intro e he
        simp only [lookupT, if_neg (hwne e)]
        exact h.mC e he
      · simp [lookupT]
      · intro t v hv
        have hne : Target.window ≠ t := by
          intro he; subst he; rw [hl] at hv; cases hv
        simp only [lookupT, if_neg hne]
        exact hv
  | element e =>
    cases hl : lookupT s.cache (Target.element e) with
    | some sid =>
      have hceq : GTResizeObserver.construct (Target.element e) tt s =
          (⟨Target.element e, tt.getD 90, sid, []⟩, s) := by
        simp [GTResizeObserver.construct, domElementResizeEventProvider,
          resizeEventProvider, hl]
      rw [hceq]
      exact ⟨h, hl, fun t v hv => hv, rfl⟩
    | none =>
      have her : e ∉ s.resizeObs := by
        intro hin
        have := h.rC e hin
        rw [hl] at this
        simp at this
      have hem : e ∉ s.mutationObs := by
        intro hin
        have := h.mC e hin
        rw [hl] at this
        simp at this
      have hceq : GTResizeObserver.construct (Target.element e) tt s =
          (⟨Target.element e, tt.getD 90, s.fresh, []⟩,
           ⟨(Target.element e, s.fresh) :: s.cache,
             s.resizeObs ++ [e], s.mutationObs ++ [e], s.fresh + 1⟩) := by
        simp [GTResizeObserver.construct, domElementResizeEventProvider,
          resizeEventProvider, hl, newStream]
      rw [hceq]
      refine ⟨⟨?_, ?_, ?_, ?_⟩, ?_, ?_, rfl⟩
      · exact List.nodup_append.mpr
          ⟨h.rN, List.nodup_singleton e, by simpa [List.disjoint_singleton] using her⟩
      · exact List.nodup_append.mpr
          ⟨h.mN, List.nodup_singleton e, by simpa [List.disjoint_singleton] using hem⟩
      · intro e' he'
        simp only [lookupT]
        by_cases hee : e = e'
        · subst hee
          rw [if_pos rfl]
          rfl
        · have hne : Target.element e ≠ Target.element e' := by
            intro hq; cases hq; exact hee rfl
          rw [if_neg hne]
          rcases List.mem_append.mp he' with hin | hin
          · exact h.rC e' hin
          · exact absurd (List.mem_singleton.mp hin) (fun hq => hee hq.symm)
      · intro e' he'
        simp only [lookupT]
        by_cases hee : e = e'
        · subst hee
          rw [if_pos rfl]
          rfl
        · have hne : Target.element e ≠ Target.element e' := by
            intro hq; cases hq; exact hee rfl
          rw [if_neg hne]
          rcases List.mem_append.mp he' with hin | hin
          · exact h.mC e' hin
          · exact absurd (List.mem_singleton.mp hin) (fun hq => hee hq.symm)
      · simp [lookupT]
      · intro t v hv
        have hne : Target.element e ≠ t := by
          intro he; subst he; rw [hl] at hv; cases hv
        simp only [lookupT, if_neg hne]
        exact hv

theorem run_spec (reqs : List (Target × Option Int)) :
    ∀ (s : Sys), SysInv s →
      SysInv (runConstructions reqs s).2 ∧
      (∀ t v, lookupT s.cache t = some v →
        lookupT (runConstructions reqs s).2.cache t = some v) ∧
      (∀ o ∈ (runConstructions reqs s).1,
        lookupT (runConstructions reqs s).2.cache o.target = some o.provider) := by
  induction reqs with
  | nil =>
    intro s h
    exact ⟨h, fun t v hv => hv, by simp [runConstructions]⟩
  | cons req rest ih =>
    intro s h
    obtain ⟨target, tt⟩ := req
    have hc := construct_spec target tt s h
    have ihr := ih (GTResizeObserver.construct target tt s).2 hc.1
    refine ⟨ihr.1, ?_, ?_⟩
    · intro t v hv
      exact ihr.2.1 t v (hc.2.2.1 t v hv)
    · intro o ho
      rcases List.mem_cons.mp ho with heq | ho'
      · subst heq
        rw [hc.2.2.2]
        exact ihr.2.1 _ _ hc.2.1
      · exact ihr.2.2 o ho'

/-- C1: over any sequence of `GTResizeObserver` constructions starting from
the pristine module state, every element is passed to the native geometry
observer's `observe` at most once and to the native mutation observer's
`observe` at most once, and any two observer handles constructed for the
same target hold the same base stream instance. -/
theorem single_registration (reqs : List (Target × Option Int)) (e : Nat) :
    ((runConstructions reqs initSys).2.resizeObs.count e ≤ 1) ∧
    ((runConstructions reqs initSys).2.mutationObs.count e ≤ 1) ∧
    (∀ o1 ∈ (runConstructions reqs initSys).1,
      ∀ o2 ∈ (runConstructions reqs initSys).1,
        o1.target = o2.target → o1.provider = o2.provider) := by
  have hinv : SysInv initSys :=
    ⟨List.nodup_nil, List.nodup_nil,
     fun e h => absurd h (List.not_mem_nil e),
     fun e h => absurd h (List.not_mem_nil e)⟩
  have hr := run_spec reqs initSys hinv
  refine ⟨?_, ?_, ?_⟩
  · exact List.nodup_iff_count_le_one.mp hr.1.rN e
  · exact List.nodup_iff_count_le_one.mp hr.1.mN e
  · intro o1 h1 o2 h2 htgt
    have e1 := hr.2.2 o1 h1
    have e2 := hr.2.2 o2 h2
    rw [htgt] at e1
    have := e1.symm.trans e2
    exact Option.some_injective _ this

/-- Witness for `single_registration`: constructing two observers for
element 5 registers it once with each native observer and gives both
handles the same base stream id. -/
theorem single_registration_witness :
    ((runConstructions [(Target.element 5, some 90), (Target.element 5, some 50)]
        initSys).2.resizeObs.count 5 ≤ 1) ∧
    ((runConstructions [(Target.element 5, some 90), (Target.element 5, some 50)]
        initSys).2.mutationObs.count 5 ≤ 1) ∧
    (⟨Target.element 5, 90, 0, []⟩ : GTResizeObserver).provider =
      (⟨Target.element 5, 50, 0, []⟩ : GTResizeObserver).provider :=
  ⟨(single_registration [(Target.element 5, some 90), (Target.element 5, some 50)] 5).1,
   (single_registration [(Target.element 5, some 90), (Target.element 5, some 50)] 5).2.1,
   (single_registration [(Target.element 5, some 90), (Target.element 5, some 50)] 5).2.2
     ⟨Target.element 5, 90, 0, []⟩ (by decide)
     ⟨Target.element 5, 50, 0, []⟩ (by decide) (by decide)⟩

/-- Witness for `resizeStart_resizeEnd_burst`: a burst of three window
resize signals at 0, 10 and 20 ms against a 90 ms observer yields one
`resizeStart` emission at time 0 with the first size and one `resizeEnd`
emission at 110 ms with the last size. -/
theorem resizeStart_resizeEnd_burst_witness :
    windowObs.resizeStartDen windowTrace = [(0, ⟨800, 600⟩)] ∧
    windowObs.resizeEndDen windowTrace = [(110, ⟨640, 480⟩)] :=
  resizeStart_resizeEnd_burst windowObs windowTrace 0 ⟨800, 600⟩
    [(10, ⟨700, 500⟩), (20, ⟨640, 480⟩)] 20 ⟨640, 480⟩
    (by decide) (by decide) (by norm_num [List.chain'_cons]) (by decide) (by decide)
